import Mathlib

/-!
Verification of the KDP formatter core pipeline
(`src/kdp_formatter/processors/text_processor.py`).

The HTML trees BeautifulSoup manipulates are embedded as the inductive
type `Node`: an element node carries its tag name, its (multi-valued)
`class` attribute as a list of tokens, an optional `id` attribute and its
ordered children; a text node carries its string.  The `TextProcessor`
object is embedded as a record holding the content that `read_content`
would produce for its input file, the current `self.content` (absent
before any read), and the metadata mapping.  String round-trips through
`str(soup)` / `BeautifulSoup(...)` are treated as the identity on trees.
-/

namespace KDP

/-- A parsed markup node: either a text node (BeautifulSoup
`NavigableString`) or an element with tag name, class-attribute token
list, optional id attribute and ordered children. -/
inductive Node where
  | text (s : String)
  | element (name : String) (classes : List String) (idAttr : Option String)
      (children : List Node)

mutual

/-- Boolean structural equality on nodes. -/
def Node.beq : Node → Node → Bool
  | .text s, .text t => s == t
  | .element n c i ch, .element n2 c2 i2 ch2 =>
    n == n2 && c == c2 && i == i2 && Node.beqs ch ch2
  | _, _ => false

/-- Boolean structural equality on node lists. -/
def Node.beqs : List Node → List Node → Bool
  | [], [] => true
  | a :: as, b :: bs => Node.beq a b && Node.beqs as bs
  | _, _ => false

end

mutual

theorem Node.beq_iff : ∀ a b : Node, Node.beq a b = true ↔ a = b
  | .text s, .text t => by simp [Node.beq]
  | .text _, .element .. => by simp [Node.beq]
  | .element .., .text _ => by simp [Node.beq]
  | .element n c i ch, .element n2 c2 i2 ch2 => by
    simp [Node.beq, Node.beqs_iff ch ch2, and_assoc]

theorem Node.beqs_iff : ∀ as bs : List Node, Node.beqs as bs = true ↔ as = bs
  | [], [] => by simp [Node.beqs]
  | [], _ :: _ => by simp [Node.beqs]
  | _ :: _, [] => by simp [Node.beqs]
  | a :: as, b :: bs => by
    simp [Node.beqs, Node.beq_iff a b, Node.beqs_iff as bs]

end

instance : DecidableEq Node := fun a b =>
  decidable_of_iff (Node.beq a b = true) (Node.beq_iff a b)

/-- Heading level of a tag name: `h1` … `h6` map to 1 … 6. -/
def headingLevel (name : String) : Option Nat :=
  if name = "h1" then some 1
  else if name = "h2" then some 2
  else if name = "h3" then some 3
  else if name = "h4" then some 4
  else if name = "h5" then some 5
  else if name = "h6" then some 6
  else none

/-- The class token `format_content` appends to a node with the given tag
name: `kdp-h<i>` for headings (`_format_headings`), `kdp-paragraph` for
`p` (`_format_paragraphs`), `kdp-list` for `ul`/`ol` (`_format_lists`). -/
def kdpClassFor (name : String) : Option String :=
  match headingLevel name with
  | some i => some ("kdp-h" ++ toString i)
  | none =>
    if name = "p" then some "kdp-paragraph"
    else if name = "ul" then some "kdp-list"
    else if name = "ol" then some "kdp-list"
    else none

mutual

/-- One normalization pass over a node, as performed by `format_content`:
`tag['class'] = tag.get('class', []) + [token]` appends the matching KDP
token to the class list of every heading, paragraph and list container. -/
def formatNode : Node → Node
  | .text s => .text s
  | .element name cls idAttr ch =>
    match kdpClassFor name with
    | some t => .element name (cls ++ [t]) idAttr (formatNodes ch)
    | none => .element name cls idAttr (formatNodes ch)

/-- `formatNode` mapped over a list of sibling nodes. -/
def formatNodes : List Node → List Node
  | [] => []
  | n :: ns => formatNode n :: formatNodes ns

end

/-- The class-token list of a node (empty for text nodes). -/
def classesTop : Node → List String
  | .text _ => []
  | .element _ cls _ _ => cls

/-- C1 counterexample: a bare `<h1>` once normalized already carries
`kdp-h1`, and normalizing it a second time appends a duplicate token, so
the class list holds `kdp-h1` twice. -/
theorem c1_counterexample :
    "kdp-h1" ∈ classesTop (formatNode (Node.element "h1" [] none [])) ∧
    (classesTop (formatNode (formatNode (Node.element "h1" [] none [])))).count "kdp-h1"
      = 2 := by
  decide

/-- C1 (amended): the normalization pass appends its token
unconditionally — the class attribute is an append-only list, not a set —
so applying the pass twice to any tagged node leaves its class list equal
to the original list followed by two copies of the node's KDP token. -/
theorem c1_format_appends_duplicate (name : String) (cls : List String)
    (idAttr : Option String) (ch : List Node) (t : String)
    (h : kdpClassFor name = some t) :
    classesTop (formatNode (formatNode (Node.element name cls idAttr ch)))
      = cls ++ [t, t] := by
  simp [formatNode, classesTop, h]

/-- Witness for `c1_format_appends_duplicate` at the concrete tag `h1`. -/
theorem c1_format_appends_duplicate_witness :
    kdpClassFor "h1" = some "kdp-h1" ∧
    classesTop (formatNode (formatNode (Node.element "h1" ["x"] none [])))
      = ["x"] ++ ["kdp-h1", "kdp-h1"] :=
  ⟨by decide, c1_format_appends_duplicate "h1" ["x"] none [] "kdp-h1" (by decide)⟩

mutual

/-- BeautifulSoup `get_text()`: concatenation of every string in the
subtree, in document order. -/
def getText : Node → String
  | .text s => s
  | .element _ _ _ ch => getTexts ch

/-- `getText` over a list of sibling nodes. -/
def getTexts : List Node → String
  | [] => ""
  | n :: ns => getText n ++ getTexts ns

end

/-- One entry of the table of contents built by `generate_toc`. -/
structure TocEntry where
  title : String
  level : Nat
  id : String
deriving DecidableEq, Repr

/-- The data of one heading tag as `soup.find_all(['h1',…,'h6'])` sees it,
in document (preorder) position. -/
structure HeadingInfo where
  title : String
  level : Nat
  idAttr : Option String
deriving DecidableEq, Repr

mutual

/-- All headings of a node's subtree in document (preorder) order, the
order `find_all` yields them. -/
def headingsOf : Node → List HeadingInfo
  | .text _ => []
  | .element name _ idAttr ch =>
    match headingLevel name with
    | some lvl => ⟨getTexts ch, lvl, idAttr⟩ :: headingsOfs ch
    | none => headingsOfs ch

/-- `headingsOf` over a list of sibling nodes. -/
def headingsOfs : List Node → List HeadingInfo
  | [] => []
  | n :: ns => headingsOf n ++ headingsOfs ns

end

mutual

/-- The loop body of `generate_toc` over one node: for every heading
encountered in document order, append a `TocEntry` whose id is the
heading's own `id` attribute or, failing that, `heading_<len(toc)>`, and
set the heading's `id` attribute to that value in the (local) soup.
Returns the extended toc list and the mutated node. -/
def tocNode (acc : List TocEntry) : Node → List TocEntry × Node
  | .text s => (acc, .text s)
  | .element name cls idAttr ch =>
    match headingLevel name with
    | some lvl =>
      let newId := idAttr.getD ("heading_" ++ toString acc.length)
      let r := tocNodes (acc ++ [⟨getTexts ch, lvl, newId⟩]) ch
      (r.1, .element name cls (some newId) r.2)
    | none =>
      let r := tocNodes acc ch
      (r.1, .element name cls idAttr r.2)

/-- `tocNode` folded over a list of sibling nodes. -/
def tocNodes (acc : List TocEntry) : List Node → List TocEntry × List Node
  | [] => (acc, [])
  | n :: ns =>
    let r := tocNode acc n
    let r2 := tocNodes r.1 ns
    (r2.1, r.2 :: r2.2)

end

/-- The toc entries `generate_toc` produces for a heading sequence when
`len(toc)` is `off` at the first of them: entry `k` (0-based, counted over
all headings) gets id `heading_<off+k>` when the heading has no id. -/
def tocSpec (off : Nat) : List HeadingInfo → List TocEntry
  | [] => []
  | h :: hs =>
    ⟨h.title, h.level, h.idAttr.getD ("heading_" ++ toString off)⟩ :: tocSpec (off + 1) hs

theorem tocSpec_append (l1 l2 : List HeadingInfo) :
    ∀ off, tocSpec off (l1 ++ l2) = tocSpec off l1 ++ tocSpec (off + l1.length) l2 := by
  induction l1 with
  | nil => intro off; simp [tocSpec]
  | cons h hs ih =>
    intro off
    simp [tocSpec, ih (off + 1)]
    have : off + 1 + hs.length = off + (hs.length + 1) := by omega
    rw [this]

theorem tocSpec_length (l : List HeadingInfo) : ∀ off, (tocSpec off l).length = l.length := by
  induction l with
  | nil => intro off; simp [tocSpec]
  | cons h hs ih => intro off; simp [tocSpec, ih (off + 1)]

mutual

/-- Characterization of the toc list `tocNode` builds: the incoming
accumulator followed by `tocSpec` of the subtree's headings, offset by the
accumulator's length. -/
theorem tocNode_fst (acc : List TocEntry) (n : Node) :
    (tocNode acc n).1 = acc ++ tocSpec acc.length (headingsOf n) := by
  cases n with
  | text s => simp [tocNode, headingsOf, tocSpec]
  | element name cls idAttr ch =>
    cases hl : headingLevel name with
    | none =>
      have ih := tocNodes_fst acc ch
      simp [tocNode, headingsOf, hl, ih]
    | some lvl =>
      have ih := tocNodes_fst (acc ++ [⟨getTexts ch, lvl,
        idAttr.getD ("heading_" ++ toString acc.length)⟩]) ch
      simp [tocNode, headingsOf, hl, ih, tocSpec]

/-- `tocNode_fst` for sibling lists. -/
theorem tocNodes_fst (acc : List TocEntry) (l : List Node) :
    (tocNodes acc l).1 = acc ++ tocSpec acc.length (headingsOfs l) := by
  cases l with
  | nil => simp [tocNodes, headingsOfs, tocSpec]
  | cons n ns =>
    have ih1 := tocNode_fst acc n
    have ih2 := tocNodes_fst (acc ++ tocSpec acc.length (headingsOf n)) ns
    simp only [tocNodes, ih1, ih2, headingsOfs, tocSpec_append, List.append_assoc,
      List.length_append, tocSpec_length]

end

theorem tocSpec_get (l : List HeadingInfo) :
    ∀ (off i : Nat), (tocSpec off l)[i]? = (l[i]?).map
      (fun hd : HeadingInfo => (⟨hd.title, hd.level,
        hd.idAttr.getD ("heading_" ++ toString (off + i))⟩ : TocEntry)) := by
  induction l with
  | nil => intro off i; simp [tocSpec]
  | cons h hs ih =>
    intro off i
    cases i with
    | zero => simp [tocSpec]
    | succ j =>
      have harith : off + 1 + j = off + (j + 1) := by omega
      simp [tocSpec, ih (off + 1) j, harith]

theorem tocSpec_map_level (l : List HeadingInfo) :
    ∀ off, (tocSpec off l).map TocEntry.level = l.map HeadingInfo.level := by
  induction l with
  | nil => intro off; simp [tocSpec]
  | cons h hs ih => intro off; simp [tocSpec, ih (off + 1)]

/-- C2 counterexample: in a document whose first heading carries id `x`
and whose second heading has no id, `generate_toc` assigns the second
heading `heading_1` (`len(toc)` counts every heading already collected,
id or not), not `heading_0` as the claim states. -/
theorem c2_counterexample :
    (tocNodes [] [Node.element "h1" [] (some "x") [],
      Node.element "h1" [] none []]).1
      = [⟨"", 1, "x"⟩, ⟨"", 1, "heading_1"⟩] ∧
    ((tocNodes [] [Node.element "h1" [] (some "x") [],
      Node.element "h1" [] none []]).1)[1]? ≠ some ⟨"", 1, "heading_0"⟩ := by
  decide

/-- C2 (amended): a heading lacking an id is assigned `heading_<n>` where
n is its 0-based position among ALL headings in document order (the
running `len(toc)`), not its position among id-less headings only; in the
two-heading example the second heading gets `heading_1`. -/
theorem c2_anchor_numbering (body : List Node) (i : Nat) (h : HeadingInfo)
    (hg : (headingsOfs body)[i]? = some h) (hid : h.idAttr = none) :
    ((tocNodes [] body).1)[i]? = some ⟨h.title, h.level, "heading_" ++ toString i⟩ := by
  rw [tocNodes_fst]
  simp [tocSpec_get, hg, hid]

/-- Witness for `c2_anchor_numbering` on the two-heading document. -/
theorem c2_anchor_numbering_witness :
    (headingsOfs [Node.element "h1" [] (some "x") [],
      Node.element "h1" [] none []])[1]? = some ⟨"", 1, none⟩ ∧
    ((tocNodes [] [Node.element "h1" [] (some "x") [],
      Node.element "h1" [] none []]).1)[1]? = some ⟨"", 1, "heading_1"⟩ :=
  ⟨by decide, c2_anchor_numbering _ 1 ⟨"", 1, none⟩ (by decide) rfl⟩

/-- C7 (confirmed): `generate_toc` emits exactly one entry per heading
tag of the document in document order, and the i-th entry's level is the
i-th heading's level. -/
theorem c7_toc_heading_correspondence (body : List Node) :
    ((tocNodes [] body).1).length = (headingsOfs body).length ∧
    ((tocNodes [] body).1).map TocEntry.level
      = (headingsOfs body).map HeadingInfo.level := by
  rw [tocNodes_fst]
  exact ⟨by simp [tocSpec_length], by simp [tocSpec_map_level]⟩

/-- The `TextProcessor` object: the content its input file would yield on
`read_content`, the current `self.content` (`none` before any read;
parsed into body nodes), and `self.metadata`. -/
structure TextProcessor where
  inputContent : List Node
  content : Option (List Node)
  metadata : List (String × String)
deriving DecidableEq

/-- Python truthiness of `self.content` as `if not self.content:` tests
it: `None` and the empty document are falsy. -/
def isFalsy : Option (List Node) → Bool
  | none => true
  | some l => l.isEmpty

/-- `read_content`: parse the input file and store it in `self.content`. -/
def read_content (st : TextProcessor) : TextProcessor :=
  { st with content := some st.inputContent }

/-- `format_content`: if `self.content` is falsy, silently call
`read_content` first; then run the three tagging passes over the parsed
soup and write the result back to `self.content`. -/
def format_content (st : TextProcessor) : TextProcessor :=
  let st1 := if isFalsy st.content then read_content st else st
  { st1 with content := some (formatNodes (st1.content.getD [])) }

/-- `generate_toc`: if `self.content` is falsy, silently call
`read_content` first; then parse `self.content` into a LOCAL soup, walk
its headings building the toc (mutating only the local soup, which is
discarded — `self.content` is never written back), and return the toc. -/
def generate_toc (st : TextProcessor) : List TocEntry × TextProcessor :=
  let st1 := if isFalsy st.content then read_content st else st
  ((tocNodes [] (st1.content.getD [])).1, st1)

/-- A processor whose input holds one paragraph and that has not executed
`read_content` yet. -/
def stC3 : TextProcessor :=
  ⟨[Node.element "p" [] none [Node.text "x"]], none, []⟩

/-- C3 counterexample: invoking `format_content` or `generate_toc` on a
processor that has never read its input does not fail with any
`OrderError`: both return normally, having silently executed the read
stage themselves (the formatted input, resp. the read input, appears in
`self.content`). -/
theorem c3_counterexample :
    (format_content stC3).content
      = some [Node.element "p" ["kdp-paragraph"] none [Node.text "x"]] ∧
    (generate_toc stC3).2.content = some stC3.inputContent := by
  decide

/-- C3 (amended): invoking a later pipeline stage before the read stage
does not fail; the stage silently runs `read_content` itself, so its
result is exactly that of `read_content` followed by the stage. -/
theorem c3_silent_reread (st : TextProcessor) (h : st.content = none) :
    format_content st = format_content (read_content st) ∧
    generate_toc st = generate_toc (read_content st) := by
  cases hc : st.inputContent <;>
    simp [format_content, generate_toc, read_content, isFalsy, h, hc, formatNodes]

/-- Witness for `c3_silent_reread` at the unread processor `stC3`. -/
theorem c3_silent_reread_witness :
    stC3.content = none ∧
    (format_content stC3 = format_content (read_content stC3) ∧
     generate_toc stC3 = generate_toc (read_content stC3)) :=
  ⟨rfl, c3_silent_reread stC3 rfl⟩

/-- A processor whose document holds a single id-less heading. -/
def docC8 : TextProcessor :=
  ⟨[], some [Node.element "h1" [] none [Node.text "T"]], []⟩

/-- C8 counterexample: `generate_toc` assigns `heading_0` to the id-less
heading in the toc it returns, yet the document is unchanged after the
call — the heading in `self.content` still lacks an id, because the
assignment mutated only a local parse that was discarded. -/
theorem c8_counterexample :
    (generate_toc docC8).1 = [⟨"T", 1, "heading_0"⟩] ∧
    (generate_toc docC8).2 = docC8 ∧
    (generate_toc docC8).2.content
      ≠ some [Node.element "h1" [] (some "heading_0") [Node.text "T"]] := by
  decide

/-- C8 (amended): anchor-id assignment is NOT observable on the document
— `generate_toc` parses a fresh local tree and discards its mutations, so
the processor is unchanged by the call; consequently repeating the call
on the same document recomputes identical assignments (the toc is a pure
function of the unchanged content). -/
theorem c8_toc_mutation_discarded (st : TextProcessor)
    (h : isFalsy st.content = false) :
    (generate_toc st).2 = st ∧
    generate_toc ((generate_toc st).2) = generate_toc st := by
  simp [generate_toc, h]

/-- Witness for `c8_toc_mutation_discarded` at the one-heading document. -/
theorem c8_toc_mutation_discarded_witness :
    isFalsy docC8.content = false ∧
    ((generate_toc docC8).2 = docC8 ∧
     generate_toc ((generate_toc docC8).2) = generate_toc docC8) :=
  ⟨rfl, c8_toc_mutation_discarded docC8 rfl⟩

/-- The whitespace characters Python `str.strip()` removes (ASCII range). -/
def pyWhitespace (c : Char) : Bool :=
  c = ' ' || c = '\t' || c = '\n' || c = '\r' || c = '\x0b' || c = '\x0c'

/-- Python `str.strip(chars)`: drop characters satisfying `p` from both
ends of the string. -/
def stripChars (p : Char → Bool) (s : String) : String :=
  String.mk (((s.data.dropWhile p).reverse.dropWhile p).reverse)

/-- Python `str.strip()` with no argument. -/
def pyStrip (s : String) : String := stripChars pyWhitespace s

/-- Whether a character is cased (ASCII): an upper- or lower-case letter. -/
def isCased (c : Char) : Bool := c.isUpper || c.isLower

/-- Python `str.isupper()`: the string has at least one cased character
and no lower-case one. -/
def pyIsUpper (s : String) : Bool :=
  s.data.any isCased && s.data.all (fun c => !c.isLower)

/-- Python `para.startswith('#')`. -/
def startsWithHash (s : String) : Bool :=
  match s.data with
  | [] => false
  | c :: _ => c = '#'

/-- The `_read_pdf` heading heuristic:
`(len(para) < 100 and para.isupper()) or para.startswith('#')`. -/
def isBoundary (para : String) : Bool :=
  (decide (para.data.length < 100) && pyIsUpper para) || startsWithHash para

/-- The `<h1>t</h1>` element `_read_pdf` emits. -/
def h1Tag (t : String) : Node := .element "h1" [] none [.text t]

/-- The `<p>t</p>` element `_read_pdf` emits. -/
def pTag (t : String) : Node := .element "p" [] none [.text t]

/-- The loop state of `_read_pdf`: the emitted parts, the paragraphs of
the currently-open chapter, and `chapter_count` (starts at 1). -/
structure PdfAcc where
  htmlParts : List Node
  currentChapter : List Node
  chapterCount : Nat
deriving DecidableEq

/-- The `_read_pdf` loop body for one non-split block `para`: skip it if
it strips to nothing; on a boundary block, first flush any open chapter
under an inserted `<h1>Chapter <count>` heading, then emit
`<h1>para.strip('#').strip()</h1>`; otherwise append
`<p>para.strip()</p>` to the open chapter. -/
def processPara (acc : PdfAcc) (para : String) : PdfAcc :=
  if (pyStrip para).length > 0 then
    if isBoundary para then
      let acc1 := if acc.currentChapter.isEmpty then acc else
        { htmlParts := acc.htmlParts
            ++ [h1Tag ("Chapter " ++ toString acc.chapterCount)]
            ++ acc.currentChapter,
          currentChapter := [],
          chapterCount := acc.chapterCount + 1 }
      { acc1 with htmlParts := acc1.htmlParts
          ++ [h1Tag (pyStrip (stripChars (fun c => c = '#') para))] }
    else
      { acc with currentChapter := acc.currentChapter ++ [pTag (pyStrip para)] }
  else acc

/-- `_read_pdf` over a flat sequence of extracted text blocks: run the
heuristic loop, then flush any remaining open chapter under a final
`<h1>Chapter <count>` heading. -/
def read_pdf_blocks (blocks : List String) : List Node :=
  let acc := blocks.foldl processPara ⟨[], [], 1⟩
  if acc.currentChapter.isEmpty then acc.htmlParts
  else acc.htmlParts ++ [h1Tag ("Chapter " ++ toString acc.chapterCount)]
    ++ acc.currentChapter

/-- The direct children of `<body>` after
`'\n'.flatten(['<html><body>'] + parts + ['</body></html>'])` is re-parsed:
a `"\n"` text node before, between and after the element parts. -/
def bodyChildren (parts : List Node) : List Node :=
  Node.text "\n" :: parts.foldr (fun p acc => p :: Node.text "\n" :: acc) []

/-- One chapter document built by `_save_epub` (`epub.EpubHtml`). -/
structure Chapter where
  title : String
  fileName : String
  content : List Node
deriving DecidableEq

/-- Whether a node is an `h1` or `h2` element
(`element.name in ['h1', 'h2']`). -/
def isH12 : Node → Bool
  | .element name _ _ _ => name = "h1" || name = "h2"
  | .text _ => false

/-- Whether a node is an element (`element.name` is truthy; text nodes
have no name). -/
def isElement : Node → Bool
  | .element _ _ _ _ => true
  | .text _ => false

/-- The chapter-splitting loop state of `_save_epub`. -/
structure SegAcc where
  chapters : List Chapter
  currentChapter : List Node
  chapterCount : Nat
deriving DecidableEq

/-- Flush the open chapter, if any (the `if current_chapter:` block of
`_save_epub`): increment `chapter_count`, title the chapter by its first
node's text when that node is an `h1`/`h2` and `Chapter <count>`
otherwise, and name its file `chapter_<count>.xhtml`. -/
def closeChapter (acc : SegAcc) : SegAcc :=
  match acc.currentChapter with
  | [] => acc
  | n :: rest =>
    let cc := acc.chapterCount + 1
    { chapters := acc.chapters
        ++ [⟨if isH12 n then getText n else "Chapter " ++ toString cc,
             "chapter_" ++ toString cc ++ ".xhtml", n :: rest⟩],
      currentChapter := [],
      chapterCount := cc }

/-- The chapter-splitting loop body of `_save_epub` over one body child:
an `h1`/`h2` closes the open chapter and starts a new one with itself;
any other element joins the open chapter; non-element children
(`NavigableString`s) are skipped. -/
def segStep (acc : SegAcc) (el : Node) : SegAcc :=
  if isH12 el then
    { closeChapter acc with currentChapter := [el] }
  else if isElement el then
    { acc with currentChapter := acc.currentChapter ++ [el] }
  else acc

/-- The chapters `_save_epub` splits the body children into, final flush
included. -/
def splitChapters (body : List Node) : List Chapter :=
  (closeChapter (body.foldl segStep ⟨[], [], 0⟩)).chapters

/-- The e-book `_save_epub` assembles: metadata, chapter documents and
spine. -/
structure EpubBook where
  title : String
  language : String
  authors : List String
  chapters : List Chapter
  spine : List String
deriving DecidableEq

/-- `_save_epub`: title from metadata (default `Untitled`), language
fixed to `'pl'`, author added only when present; split the parsed content
into chapters, fall back to a single `Content` placeholder chapter
holding the whole content when the split produced none; spine is the
`'nav'` item followed by the chapters in order. -/
def save_epub (st : TextProcessor) : EpubBook :=
  let content := st.content.getD []
  let cs := splitChapters content
  let chapters := if cs.isEmpty then [⟨"Content", "chapter_1.xhtml", content⟩] else cs
  { title := (st.metadata.lookup "title").getD "Untitled",
    language := "pl",
    authors := match st.metadata.lookup "author" with
      | some a => [a]
      | none => [],
    chapters := chapters,
    spine := "nav" :: chapters.map Chapter.fileName }

/-- C9 (confirmed): the assembled book's language is the fixed locale
`pl` for every processor — a `language` key in the metadata mapping is
never consulted. -/
theorem c9_language_fixed (st : TextProcessor) (lang : String) :
    (save_epub st).language = "pl" ∧
    (save_epub { st with metadata := ("language", lang) :: st.metadata }).language
      = "pl" :=
  ⟨rfl, rfl⟩

/-- C5 (confirmed): for every processor the assembled spine starts with
the navigation item and has at least two entries — when the split yields
no chapter, the placeholder `Content` chapter keeps the spine valid. -/
theorem c5_spine_nonempty (st : TextProcessor) :
    (save_epub st).spine.head? = some "nav" ∧ 2 ≤ (save_epub st).spine.length := by
  cases hcs : splitChapters (st.content.getD []) with
  | nil => simp [save_epub, hcs]
  | cons c cs => simp [save_epub, hcs]

/-- The content committed by a splitting state: chapters already emitted
followed by the open chapter. -/
def segOut (acc : SegAcc) : List Node :=
  (acc.chapters.map Chapter.content).flatten ++ acc.currentChapter

theorem segOut_close (acc : SegAcc) : segOut (closeChapter acc) = segOut acc := by
  cases hc : acc.currentChapter <;> simp [closeChapter, segOut, hc]

theorem closeChapter_current (acc : SegAcc) :
    (closeChapter acc).currentChapter = [] := by
  cases hc : acc.currentChapter <;> simp [closeChapter, hc]

theorem segOut_step (acc : SegAcc) (el : Node) :
    segOut (segStep acc el) = segOut acc ++ (if isElement el then [el] else []) := by
  cases el with
  | text s => simp [segStep, segOut, isH12, isElement]
  | element name cls idAttr ch =>
    by_cases hh : (name = "h1" || name = "h2") = true
    · have h1 := segOut_close acc
      have h2 := closeChapter_current acc
      simp only [segStep, isH12, isElement, hh, if_true, segOut] at *
      simp [h2, ← h1]
    · simp [segStep, isH12, isElement, hh, segOut]

theorem segOut_foldl (l : List Node) :
    ∀ acc, segOut (l.foldl segStep acc) = segOut acc ++ l.filter isElement := by
  induction l with
  | nil => intro acc; simp
  | cons n ns ih =>
    intro acc
    simp only [List.foldl_cons, ih (segStep acc n), segOut_step]
    cases hn : isElement n <;> simp [List.filter_cons, hn]

/-- C6 counterexample: the normalized content of the one-block document
`<h1>A</h1>` contains the newline text nodes the join introduced, and
concatenating the split chapters' contents does not reproduce it — the
text nodes are dropped. -/
theorem c6_counterexample :
    ((splitChapters (formatNodes (bodyChildren [h1Tag "A"]))).map
        Chapter.content).flatten
      ≠ formatNodes (bodyChildren [h1Tag "A"]) := by
  decide

/-- C6 (amended): concatenating the split chapters' contents in order
reproduces exactly the ELEMENT children of the body, each once and in
order; non-element (text) children are omitted by the split. -/
theorem c6_concat_elements (body : List Node) :
    ((splitChapters body).map Chapter.content).flatten = body.filter isElement := by
  have h1 := segOut_close (body.foldl segStep ⟨[], [], 0⟩)
  have h2 := segOut_foldl body ⟨[], [], 0⟩
  have h3 := closeChapter_current (body.foldl segStep ⟨[], [], 0⟩)
  have h4 : segOut (closeChapter (body.foldl segStep ⟨[], [], 0⟩))
      = body.filter isElement := by
    rw [h1, h2]; simp [segOut]
  unfold splitChapters
  rw [← h4]
  simp [segOut, h3]

/-- The four heuristic-mode blocks of scenario B. -/
def scenarioB : List String :=
  ["INTRODUCTION", "hello world", "CONCLUSION", "bye world"]

/-- The chapters `_save_epub` splits from scenario B's content after the
read (`_read_pdf`) and format stages. -/
def chaptersB : List Chapter :=
  splitChapters (formatNodes (bodyChildren (read_pdf_blocks scenarioB)))

/-- C4 counterexample: scenario B yields four chapters, not two — the
flush inserts a generated `Chapter <n>` heading which itself opens a new
chapter, orphaning each detected heading in a chapter of its own. -/
theorem c4_counterexample :
    chaptersB.map Chapter.title
      = ["INTRODUCTION", "Chapter 1", "CONCLUSION", "Chapter 2"] ∧
    chaptersB.length ≠ 2 := by
  decide

/-- C4 (amended): scenario B produces exactly four chapters:
`INTRODUCTION` holding only its heading, `Chapter 1` holding the
paragraph `hello world`, `CONCLUSION` holding only its heading, and
`Chapter 2` holding the paragraph `bye world`. -/
theorem c4_scenarioB_chapters :
    chaptersB =
      [⟨"INTRODUCTION", "chapter_1.xhtml",
         [Node.element "h1" ["kdp-h1"] none [Node.text "INTRODUCTION"]]⟩,
       ⟨"Chapter 1", "chapter_2.xhtml",
         [Node.element "h1" ["kdp-h1"] none [Node.text "Chapter 1"],
          Node.element "p" ["kdp-paragraph"] none [Node.text "hello world"]]⟩,
       ⟨"CONCLUSION", "chapter_3.xhtml",
         [Node.element "h1" ["kdp-h1"] none [Node.text "CONCLUSION"]]⟩,
       ⟨"Chapter 2", "chapter_4.xhtml",
         [Node.element "h1" ["kdp-h1"] none [Node.text "Chapter 2"],
          Node.element "p" ["kdp-paragraph"] none [Node.text "bye world"]]⟩] := by
  decide

/-- C10 (confirmed): a short block with no cased character that does not
start with `#` is never a heading boundary; `_read_pdf` appends it to the
open chapter as an ordinary paragraph. -/
theorem c10_uncased_not_boundary (para : String) (acc : PdfAcc)
    (hshort : para.length < 100)
    (hnc : ∀ c ∈ para.data, isCased c = false)
    (hh : startsWithHash para = false)
    (hne : (pyStrip para).length > 0) :
    isBoundary para = false ∧
    processPara acc para
      = { acc with currentChapter := acc.currentChapter ++ [pTag (pyStrip para)] } := by
  have hany : para.data.any isCased = false := by
    rw [List.any_eq_false]
    intro c hc
    simp [hnc c hc]
  have hup : pyIsUpper para = false := by
    simp [pyIsUpper, hany]
  have hb : isBoundary para = false := by
    simp [isBoundary, hup, hh]
  refine ⟨hb, ?_⟩
  simp [processPara, hne, hb]

/-- Witness for `c10_uncased_not_boundary` at the all-digit block
`1234` and an empty loop state. -/
theorem c10_uncased_not_boundary_witness :
    isBoundary "1234" = false ∧
    processPara ⟨[], [], 1⟩ "1234"
      = { (⟨[], [], 1⟩ : PdfAcc) with
          currentChapter := (⟨[], [], 1⟩ : PdfAcc).currentChapter
            ++ [pTag (pyStrip "1234")] } :=
  c10_uncased_not_boundary "1234" ⟨[], [], 1⟩ (by decide) (by decide) (by decide)
    (by decide)

end KDP
